import Mathlib

/-!
Shallow embedding of the resilience core of the antigravity-claude-proxy
repository:

* `src/cloudcode/streaming-handler.js` — the retry/failover orchestrator
  `sendMessageStream` with its endpoint loop, empty-response retry loop and
  outer failure classification;
* the account storage module (`loadAccounts`, `loadAccountsFromEnv`);
* `src/cloudcode/model-api.js` — `getSubscriptionTier`.

External interactions (account-manager selection results, fetch outcomes,
parsed reset times, random message ids) are supplied as explicit oracle
inputs, consumed in exactly the order the JavaScript consumes them.  Numeric
values use `Nat`; JavaScript truthiness on optional values is modelled
explicitly where the code relies on it.
-/

namespace Antigravity

/-- JavaScript truthiness of an optional numeric value: `null`/`undefined`
and `0` are falsy (used by the reset-time bookkeeping at
streaming-handler.js:141). -/
def truthyNum : Option Nat → Bool
  | some n => decide (n ≠ 0)
  | none => false

/-- JavaScript truthiness of an optional string: `null`/`undefined` and the
empty string are falsy. -/
def truthyStr : Option String → Bool
  | some s => !s.isEmpty
  | none => false

/-- JavaScript `a || b` on optional strings: the first operand when truthy,
otherwise the second. -/
def jsOr (a b : Option String) : Option String :=
  if truthyStr a then a else b

/-- Boolean prefix test on character lists. -/
def isPrefB : List Char → List Char → Bool
  | [], _ => true
  | _ :: _, [] => false
  | a :: as, b :: bs => a == b && isPrefB as bs

/-- Boolean substring test on character lists, modelling the JavaScript
`String.prototype.includes` checks the handler performs on error messages. -/
def isSubB (n : List Char) : List Char → Bool
  | [] => List.isEmpty n
  | c :: t => isPrefB n (c :: t) || isSubB n t

theorem isPrefB_append_left (xs : List Char) :
    ∀ ys zs, isPrefB ys zs = true → isPrefB (xs ++ ys) (xs ++ zs) = true := by
  induction xs with
  | nil => intro ys zs h; simpa using h
  | cons c cs ih =>
    intro ys zs h
    simpa [isPrefB] using ih ys zs h

theorem isSubB_of_isPrefB {n h : List Char} (hp : isPrefB n h = true) :
    isSubB n h = true := by
  cases h with
  | nil =>
    cases n with
    | nil => rfl
    | cons a as => simp [isPrefB] at hp
  | cons c t => simp [isSubB, hp]

/-- Decimal rendering of an HTTP status code (all statuses are < 1000), as
used by the JavaScript template strings that interpolate `response.status`. -/
def natToChars (s : Nat) : List Char :=
  if s < 10 then [Nat.digitChar s]
  else if s < 100 then [Nat.digitChar (s / 10), Nat.digitChar (s % 10)]
  else [Nat.digitChar (s / 100), Nat.digitChar (s / 10 % 10), Nat.digitChar (s % 10)]

theorem natToChars_5xx {s : Nat} (h1 : 500 ≤ s) (h2 : s < 600) :
    natToChars s = '5' :: [Nat.digitChar (s / 10 % 10), Nat.digitChar (s % 10)] := by
  have hd : s / 100 = 5 := by omega
  unfold natToChars
  rw [if_neg (by omega), if_neg (by omega), hd]
  rfl

/-- Anthropic-format SSE events, restricted to the payload fields the
streaming handler itself constructs or that the claims mention. -/
inductive SSEEvent where
  | messageStart (id : String) (model : String)
  | contentBlockStart (index : Nat) (blockType : String) (text : String)
  | contentBlockDelta (index : Nat) (deltaType : String) (text : String)
  | contentBlockStop (index : Nat)
  | messageDelta (stopReason : String)
  | messageStop
  deriving DecidableEq

/-- Model of `emitEmptyResponseFallback` (streaming-handler.js:307-346).
The random message id (`msg_` plus random hex) is passed as a parameter. -/
def emitEmptyResponseFallback (messageId model : String) : List SSEEvent :=
  [ .messageStart messageId model,
    .contentBlockStart 0 "text" "",
    .contentBlockDelta 0 "text_delta" "[No response after retries - please try again]",
    .contentBlockStop 0,
    .messageDelta "end_turn",
    .messageStop ]

/-- Errors thrown by the streaming handler, tagged by their construction
site.  `errMessage` below recovers the message text the JavaScript builds. -/
inductive PErr where
  | rateLimited (resetMs : Option Nat) (body : List Char)
  | authInvalid (body : List Char)
  | apiError (status : Nat) (body : List Char)
  | emptyRetryFailed (status : Nat) (body : List Char)
  | networkFailure (body : List Char)
  | emptyResponse
  | resourceExhausted (model : String) (waitMs resetAt : Nat)
  | noAccountsAvailable
  | maxRetriesExceeded
  deriving DecidableEq

/-- Message text of each error, as built by the JavaScript template strings
(streaming-handler.js:66,101,147,200,207,229,253,299). -/
def errMessage : PErr → List Char
  | .rateLimited _ body => ("Rate limited: ").data ++ body
  | .authInvalid body => ("401 AUTH_INVALID during retry: ").data ++ body
  | .apiError s body => ("API error ").data ++ natToChars s ++ (": ").data ++ body
  | .emptyRetryFailed s body =>
      ("Empty response retry failed: ").data ++ natToChars s ++ (" - ").data ++ body
  | .networkFailure body => body
  | .emptyResponse => ("Empty response from model").data
  | .resourceExhausted _ _ _ => ("RESOURCE_EXHAUSTED: Rate limited").data
  | .noAccountsAvailable => ("No accounts available").data
  | .maxRetriesExceeded => ("Max retries exceeded").data

/-- Modelled from the spec: `isRateLimitError` is defined in `src/errors.js`,
which is not under `src/`; §7 of the spec gives a closed taxonomy in which a
rate-limit failure is identified at the point it is first detected.  The
recognizer therefore matches exactly the errors this handler constructs as
rate-limit signals (streaming-handler.js:200,253). -/
def isRateLimitErr : PErr → Bool
  | .rateLimited _ _ => true
  | _ => false

/-- Modelled from the spec: `isAuthError` from `src/errors.js` (not under
`src/`); matches the credential-rejected errors of §7's taxonomy, which this
handler constructs at streaming-handler.js:207. -/
def isAuthErr : PErr → Bool
  | .authInvalid _ => true
  | _ => false

/-- Modelled from the spec: `isEmptyResponseError` from `src/errors.js` (not
under `src/`); matches §7's `EmptyResponseError` (structurally successful
call, zero content produced). -/
def isEmptyRespErr : PErr → Bool
  | .emptyResponse => true
  | _ => false

/-- Modelled from the spec: `isNetworkError` from `src/utils/helpers.js`
(not under `src/`); matches §7's `NetworkError` (transport-level failure). -/
def isNetErr : PErr → Bool
  | .networkFailure _ => true
  | _ => false

/-- Identity of one upstream request: the endpoint URL (represented by the
position of the endpoint in the ordered fallback list), the arguments of
`buildHeaders(token, model, 'text/event-stream')`, and the JSON payload
(`buildCloudCodeRequest(anthropicRequest, project)`, represented by the
request and project it is built from). -/
structure ReqData where
  endpointIdx : Nat
  token : Nat
  model : String
  payloadReq : String × Nat
  project : Nat
  deriving DecidableEq

/-- Observable side effects of the handler: induced delays, account-manager
mutations and re-issued upstream requests. -/
inductive Act where
  | sleep (ms : Nat)
  | clearExpiredLimits
  | clearCaches (email : Nat)
  | markRateLimited (email : Nat) (resetMs : Option Nat) (model : String)
  | pickNextCall
  | resetAllRateLimits
  | refetch (r : ReqData)
  deriving DecidableEq

/-- Result of one `streamSSEResponse` call on a (2xx) response: the yielded
event list on success, the `EmptyResponseError` signal, or another stream
error. -/
inductive StreamTryRes where
  | ok (events : List SSEEvent)
  | emptyResp
  | fail (e : PErr)
  deriving DecidableEq

/-- Outcome of one re-issued fetch inside the empty-response retry loop. -/
inductive RetryFetchRes where
  | okStream (s : StreamTryRes)
  | httpStatus (code : Nat) (body : List Char) (resetMs : Option Nat)
  | netThrow (body : List Char)
  deriving DecidableEq

/-- Result of the empty-response retry loop (streaming-handler.js:162-233).
`undersupplied` is a modelling artifact marking an oracle script shorter
than the number of refetches the code would perform. -/
inductive InnerRes where
  | streamed (events : List SSEEvent)
  | fallbackEmitted (events : List SSEEvent)
  | threw (e : PErr)
  | undersupplied
  deriving DecidableEq

/-- Model of the empty-response retry loop (streaming-handler.js:162-233):
`k` is the loop variable `emptyRetries`, `cur` the result of streaming the
current response, and `script` the outcomes of the re-issued fetches in
order.  On `EmptyResponseError` with retries left the code sleeps
`500 * 2 ^ k` ms and re-fetches the same request; a 429 on the refetch marks
the account rate-limited and throws; a 401 clears the credential caches and
throws; a 5xx sleeps 1s, re-fetches once more and, if still failing, throws
with the new status but the first refetch's error text (the code reads
`retryErrorText` captured before the inner refetch). -/
def emptyRetryLoop (R : Nat) (msgId : String) (email : Nat) (req : ReqData) :
    Nat → StreamTryRes → List RetryFetchRes → InnerRes × List Act
  | _, .ok evs, _ => (.streamed evs, [])
  | _, .fail e, _ => (.threw e, [])
  | k, .emptyResp, script =>
    if R ≤ k then
      (.fallbackEmitted (emitEmptyResponseFallback msgId req.model), [])
    else
      match script with
      | [] => (.undersupplied, [.sleep (500 * 2 ^ k)])
      | f :: rest =>
        match f with
        | .okStream s =>
          let next := emptyRetryLoop R msgId email req (k + 1) s rest
          (next.1, .sleep (500 * 2 ^ k) :: .refetch req :: next.2)
        | .netThrow body =>
          (.threw (.networkFailure body), [.sleep (500 * 2 ^ k), .refetch req])
        | .httpStatus code body reset =>
          if code = 429 then
            (.threw (.rateLimited reset body),
             [.sleep (500 * 2 ^ k), .refetch req, .markRateLimited email reset req.model])
          else if code = 401 then
            (.threw (.authInvalid body),
             [.sleep (500 * 2 ^ k), .refetch req, .clearCaches email])
          else if 500 ≤ code then
            match rest with
            | [] => (.undersupplied, [.sleep (500 * 2 ^ k), .refetch req, .sleep 1000])
            | f2 :: rest2 =>
              match f2 with
              | .okStream s2 =>
                let next := emptyRetryLoop R msgId email req k s2 rest2
                (next.1,
                 .sleep (500 * 2 ^ k) :: .refetch req :: .sleep 1000 :: .refetch req :: next.2)
              | .netThrow body2 =>
                (.threw (.networkFailure body2),
                 [.sleep (500 * 2 ^ k), .refetch req, .sleep 1000, .refetch req])
              | .httpStatus code2 _ _ =>
                (.threw (.emptyRetryFailed code2 body),
                 [.sleep (500 * 2 ^ k), .refetch req, .sleep 1000, .refetch req])
          else
            (.threw (.emptyRetryFailed code body), [.sleep (500 * 2 ^ k), .refetch req])

/-- Outcome of the initial fetch against one endpoint
(streaming-handler.js:119-123): a 2xx response together with the behaviors
of streaming it (`first`) and of the refetches the empty-response retry loop
may issue (`retries`), a non-2xx status (with the reset time
`parseResetTime` would extract, meaningful for 429), or a thrown
network-level failure. -/
inductive FetchRes where
  | ok (first : StreamTryRes) (retries : List RetryFetchRes)
  | httpStatus (code : Nat) (body : List Char) (resetMs : Option Nat)
  | netThrow (body : List Char)
  deriving DecidableEq

/-- State of the `lastError` variable of the endpoint loop
(streaming-handler.js:114,141-147). -/
inductive LastErr where
  | noneYet
  | e429 (resetMs : Option Nat) (body : List Char)
  | err (e : PErr)
  deriving DecidableEq

/-- Model of the minimum-reset bookkeeping at streaming-handler.js:141-143:
`lastError` is replaced when it is not yet a 429, or when the new reset time
is truthy and either the recorded one is falsy or the new one is strictly
smaller (JavaScript truthiness: `null` and `0` are falsy). -/
def update429 (le : LastErr) (resetMs : Option Nat) (body : List Char) : LastErr :=
  match le with
  | .e429 oldReset oldBody =>
    if truthyNum resetMs && (!truthyNum oldReset || decide (resetMs.getD 0 < oldReset.getD 0)) then
      .e429 resetMs body
    else
      .e429 oldReset oldBody
  | _ => .e429 resetMs body

/-- Result of one account's iteration over the endpoint list
(streaming-handler.js:114-256): a successful stream, a thrown error
(propagating to the outer catch), or falling through with no recorded error
(possible when every endpoint returned 401). -/
inductive EndLoopRes where
  | success (events : List SSEEvent)
  | threw (e : PErr)
  | fellThrough
  | undersupplied
  deriving DecidableEq

/-- Per-attempt context: the constants and per-account values in scope
inside the retry loop body. `R` is `MAX_EMPTY_RESPONSE_RETRIES`. -/
structure AttemptCtx where
  R : Nat
  msgId : String
  email : Nat
  token : Nat
  project : Nat
  model : String
  payloadReq : String × Nat
  numEndpoints : Nat

/-- Request identity used for the fetch against endpoint `idx`
(streaming-handler.js:117-123): the handler builds the URL from the
endpoint, the headers from `(token, model, 'text/event-stream')` and the
body from the payload. -/
def mkReq (c : AttemptCtx) (idx : Nat) : ReqData :=
  ⟨idx, c.token, c.model, c.payloadReq, c.project⟩

/-- Model of the endpoint loop (streaming-handler.js:114-256).  `idx` is the
position of the current endpoint, `remaining` the number of endpoints left,
`le` the `lastError` accumulator, and `scr` gives each endpoint's fetch
outcome.  Per endpoint: a thrown fetch is caught at line 235 and recorded;
401 clears the credential caches and moves on without touching `lastError`;
429 records the minimum reset time; other statuses record an
`API error` (sleeping 1s first for 5xx); a 2xx response runs the
empty-response retry loop, whose thrown rate-limit/empty errors are
re-thrown (lines 236-241) while other thrown errors are recorded.  After
the last endpoint (lines 248-256): an all-429 `lastError` marks the account
rate-limited and throws; any other recorded error is thrown; no recorded
error falls through. -/
def endpointGo (c : AttemptCtx) (scr : Nat → FetchRes) :
    Nat → Nat → LastErr → EndLoopRes × List Act
  | _, 0, .noneYet => (.fellThrough, [])
  | _, 0, .e429 reset body =>
      (.threw (.rateLimited reset body), [.markRateLimited c.email reset c.model])
  | _, 0, .err e => (.threw e, [])
  | idx, r + 1, le =>
    match scr idx with
    | .netThrow body => endpointGo c scr (idx + 1) r (.err (.networkFailure body))
    | .httpStatus code body reset =>
      if code = 401 then
        let next := endpointGo c scr (idx + 1) r le
        (next.1, .clearCaches c.email :: next.2)
      else if code = 429 then
        endpointGo c scr (idx + 1) r (update429 le reset body)
      else
        let next := endpointGo c scr (idx + 1) r (.err (.apiError code body))
        (next.1, (if 500 ≤ code then [Act.sleep 1000] else []) ++ next.2)
    | .ok first retries =>
      let inner := emptyRetryLoop c.R c.msgId c.email (mkReq c idx) 0 first retries
      match inner.1 with
      | .streamed evs => (.success evs, inner.2)
      | .fallbackEmitted evs => (.success evs, inner.2)
      | .undersupplied => (.undersupplied, inner.2)
      | .threw e =>
        if isRateLimitErr e || isEmptyRespErr e then (.threw e, inner.2)
        else
          let next := endpointGo c scr (idx + 1) r (.err e)
          (next.1, inner.2 ++ next.2)

/-- Entry point of the endpoint loop: start at the first endpoint with no
recorded error. -/
def endpointLoop (c : AttemptCtx) (scr : Nat → FetchRes) : EndLoopRes × List Act :=
  endpointGo c scr 0 c.numEndpoints .noneYet

/-- Action the outer catch block takes (streaming-handler.js:258-284). -/
inductive OuterAct where
  | rotate
  | rotateAdvance
  | rotateNetwork
  | rethrow
  deriving DecidableEq

/-- Model of the outer catch classification (streaming-handler.js:258-284):
rate-limit and auth errors rotate to the next account; then the message
substring checks for a 5xx (`API error 5`, `500`, `503`) force advance the
rotation pointer and rotate; then network errors pause, advance and rotate;
everything else is re-thrown to the caller. -/
def outerClassify (e : PErr) : OuterAct :=
  if isRateLimitErr e then .rotate
  else if isAuthErr e then .rotate
  else if isSubB ("API error 5").data (errMessage e) ||
          isSubB ("500").data (errMessage e) ||
          isSubB ("503").data (errMessage e) then .rotateAdvance
  else if isNetErr e then .rotateNetwork
  else .rethrow

/-- Configuration constants of the handler.  `MAX_RETRIES`,
`MAX_EMPTY_RESPONSE_RETRIES` and `MAX_WAIT_BEFORE_ERROR_MS` are imported
from `src/constants.js` (not under `src/`; the advanced-configuration doc
describes them as configurable), so they are parameters here.  `now` is the
clock reading used to render the next-available reset time, `msgId` the
random message id of the synthetic fallback message. -/
structure Consts where
  MAX_RETRIES : Nat
  MAX_EMPTY_RESPONSE_RETRIES : Nat
  MAX_WAIT_BEFORE_ERROR_MS : Nat
  numEndpoints : Nat
  now : Nat
  msgId : String

/-- Anthropic-format request: the model name plus all remaining fields
(messages, max_tokens, thinking), which the handler never modifies — the
fallback substitution at lines 96/293 spreads them unchanged. -/
structure AnthReq where
  model : String
  rest : Nat
  deriving DecidableEq

/-- Oracle inputs of one iteration of the retry loop: the results of the
account-manager calls the body makes, in order
(streaming-handler.js:46,54,59-60,78,85,107-108), and the per-endpoint
fetch outcomes. -/
structure AttemptInputs where
  stickyAcct : Option Nat
  stickyWaitMs : Nat
  afterWaitAcct : Option Nat
  allRateLimited : Bool
  minWaitMs : Nat
  pickAfterWait : Option Nat
  pickAfterReset : Option Nat
  tokenRes : Except PErr Nat
  projectRes : Except PErr Nat
  fetches : Nat → FetchRes

/-- Result of one iteration of the retry loop body. -/
inductive AttemptOut where
  | success (events : List SSEEvent)
  | terminal (e : PErr)
  | rotate
  | noAccount
  | fellThrough
  | undersupplied
  deriving DecidableEq

/-- Record of one iteration: the account it worked on (if any) and the side
effects it performed. -/
structure AttemptRec where
  selected : Option Nat
  acts : List Act

/-- Account selection phase of one iteration (streaming-handler.js:44-103,
up to but excluding the fallback check at line 89): returns either the
resolved account option together with the performed actions, or the
terminal `RESOURCE_EXHAUSTED` error of line 65 — which is thrown outside
the try block and therefore never reaches the outer catch. -/
def selectPhase (K : Consts) (request : AnthReq) (inp : AttemptInputs) :
    (Option Nat × List Act) ⊕ (PErr × List Act) :=
  let s1 : Option Nat × List Act :=
    if inp.stickyAcct.isNone && decide (0 < inp.stickyWaitMs) then
      (inp.afterWaitAcct, [.sleep inp.stickyWaitMs, .clearExpiredLimits])
    else
      (inp.stickyAcct, [])
  match s1.1 with
  | some a => .inl (some a, s1.2)
  | none =>
    if inp.allRateLimited then
      if K.MAX_WAIT_BEFORE_ERROR_MS < inp.minWaitMs then
        .inr (.resourceExhausted request.model inp.minWaitMs (K.now + inp.minWaitMs), s1.2)
      else
        let acts2 := s1.2 ++ [.sleep inp.minWaitMs, .sleep 500, .clearExpiredLimits]
        match inp.pickAfterWait with
        | some a => .inl (some a, acts2)
        | none =>
          .inl (inp.pickAfterReset, acts2 ++ [.resetAllRateLimits])
    else
      .inl (none, s1.2)

/-- Outcome and actions the outer catch classification adds to an attempt
whose try block threw `e` (streaming-handler.js:258-284). -/
def applyOuter (e : PErr) : AttemptOut × List Act :=
  match outerClassify e with
  | .rotate => (.rotate, [])
  | .rotateAdvance => (.rotate, [.pickNextCall])
  | .rotateNetwork => (.rotate, [.sleep 1000, .pickNextCall])
  | .rethrow => (.terminal e, [])

/-- Model of one iteration of the retry loop (streaming-handler.js:44-285):
select an account (possibly waiting), fail fast or report `noAccount` when
none is found, otherwise resolve the credential and project (whose thrown
errors reach the outer catch) and run the endpoint loop, classifying any
thrown error through the outer catch. -/
def attemptOnce (K : Consts) (request : AnthReq) (inp : AttemptInputs) :
    AttemptOut × AttemptRec :=
  match selectPhase K request inp with
  | .inr (e, acts) => (.terminal e, ⟨none, acts⟩)
  | .inl (none, acts) => (.noAccount, ⟨none, acts⟩)
  | .inl (some a, acts) =>
    match inp.tokenRes with
    | .error e =>
      let o := applyOuter e
      (o.1, ⟨some a, acts ++ o.2⟩)
    | .ok tok =>
      match inp.projectRes with
      | .error e =>
        let o := applyOuter e
        (o.1, ⟨some a, acts ++ o.2⟩)
      | .ok proj =>
        let c : AttemptCtx :=
          ⟨K.MAX_EMPTY_RESPONSE_RETRIES, K.msgId, a, tok, proj,
           request.model, (request.model, request.rest), K.numEndpoints⟩
        let r := endpointLoop c inp.fetches
        match r.1 with
        | .success evs => (.success evs, ⟨some a, acts ++ r.2⟩)
        | .fellThrough => (.fellThrough, ⟨some a, acts ++ r.2⟩)
        | .undersupplied => (.undersupplied, ⟨some a, acts ++ r.2⟩)
        | .threw e =>
          let o := applyOuter e
          (o.1, ⟨some a, acts ++ r.2 ++ o.2⟩)

/-- Result of the whole retry loop. -/
inductive LoopOut where
  | success (events : List SSEEvent)
  | terminal (e : PErr)
  | noAccount
  | exhausted
  | undersupplied
  deriving DecidableEq

/-- Attempt ceiling of the retry loop (streaming-handler.js:42):
`Math.max(MAX_RETRIES, accountManager.getAccountCount() + 1)`. -/
def maxAttempts (K : Consts) (accountCount : Nat) : Nat :=
  Nat.max K.MAX_RETRIES (accountCount + 1)

/-- Model of the retry loop (streaming-handler.js:44-286): run the body up
to `fuel` times starting at attempt index `i`; `rotate` and `fellThrough`
iterations continue, everything else ends the loop; exhausting the fuel is
the fall-out-of-the-loop case at line 288. -/
def loopAux (K : Consts) (request : AnthReq) (world : Nat → AttemptInputs) :
    Nat → Nat → LoopOut × List AttemptRec
  | 0, _ => (.exhausted, [])
  | fuel + 1, i =>
    let step := attemptOnce K request (world i)
    match step.1 with
    | .success evs => (.success evs, [step.2])
    | .terminal e => (.terminal e, [step.2])
    | .noAccount => (.noAccount, [step.2])
    | .undersupplied => (.undersupplied, [step.2])
    | .rotate =>
      let next := loopAux K request world fuel (i + 1)
      (next.1, step.2 :: next.2)
    | .fellThrough =>
      let next := loopAux K request world fuel (i + 1)
      (next.1, step.2 :: next.2)

/-- Final outcome of `sendMessageStream`: the yielded events on normal
return, or the error it raises. -/
inductive Outcome where
  | ok (events : List SSEEvent)
  | error (e : PErr)
  | undersupplied
  deriving DecidableEq

/-- Record of one invocation of `sendMessageStream`: the model it ran with,
the value of its `fallbackEnabled` parameter, and its attempt records. -/
structure RunRec where
  model : String
  fallbackEnabled : Bool
  attempts : List AttemptRec

/-- Result of a (possibly nested) `sendMessageStream` call: the outcome plus
the invocation records, outermost first. -/
structure RunOut where
  outcome : Outcome
  runs : List RunRec

/-- Model of `sendMessageStream` called with `fallbackEnabled = false`: the
fallback branches at lines 91 and 289 are skipped, so running out of
accounts throws `No accounts available` (line 101) and exhausting the loop
throws `Max retries exceeded` (line 299). -/
def runNoFB (K : Consts) (nAcc : Nat) (request : AnthReq)
    (world : Nat → AttemptInputs) : RunOut :=
  match loopAux K request world (maxAttempts K nAcc) 0 with
  | (.success evs, recs) => ⟨.ok evs, [⟨request.model, false, recs⟩]⟩
  | (.terminal e, recs) => ⟨.error e, [⟨request.model, false, recs⟩]⟩
  | (.noAccount, recs) => ⟨.error .noAccountsAvailable, [⟨request.model, false, recs⟩]⟩
  | (.exhausted, recs) => ⟨.error .maxRetriesExceeded, [⟨request.model, false, recs⟩]⟩
  | (.undersupplied, recs) => ⟨.undersupplied, [⟨request.model, false, recs⟩]⟩

/-- Model of `sendMessageStream` called with `fallbackEnabled = true`: at
either fallback site (lines 91-100 and 289-297), when `getFallbackModel`
maps the model, the whole request restarts once with the substituted model
and `fallbackEnabled = false` (the literal `false` argument of the
recursive calls at lines 97 and 294) — i.e. as `runNoFB`.  `fbMap` models
`getFallbackModel` from `src/fallback-config.js` (not under `src/`;
spec §4.4 describes it as a feature-flagged model-fallback mapping). -/
def runWithFB (K : Consts) (nAcc : Nat) (fbMap : String → Option String)
    (request : AnthReq) (world fbWorld : Nat → AttemptInputs) : RunOut :=
  match loopAux K request world (maxAttempts K nAcc) 0 with
  | (.success evs, recs) => ⟨.ok evs, [⟨request.model, true, recs⟩]⟩
  | (.terminal e, recs) => ⟨.error e, [⟨request.model, true, recs⟩]⟩
  | (.undersupplied, recs) => ⟨.undersupplied, [⟨request.model, true, recs⟩]⟩
  | (.noAccount, recs) =>
    match fbMap request.model with
    | some fm =>
      let nested := runNoFB K nAcc { request with model := fm } fbWorld
      ⟨nested.outcome, ⟨request.model, true, recs⟩ :: nested.runs⟩
    | none => ⟨.error .noAccountsAvailable, [⟨request.model, true, recs⟩]⟩
  | (.exhausted, recs) =>
    match fbMap request.model with
    | some fm =>
      let nested := runNoFB K nAcc { request with model := fm } fbWorld
      ⟨nested.outcome, ⟨request.model, true, recs⟩ :: nested.runs⟩
    | none => ⟨.error .maxRetriesExceeded, [⟨request.model, true, recs⟩]⟩

/-- Model of `sendMessageStream(anthropicRequest, accountManager,
fallbackEnabled)` (streaming-handler.js:36-300). -/
def sendMessageStream (K : Consts) (nAcc : Nat) (fbMap : String → Option String)
    (request : AnthReq) (world fbWorld : Nat → AttemptInputs)
    (fallbackEnabled : Bool) : RunOut :=
  if fallbackEnabled then runWithFB K nAcc fbMap request world fbWorld
  else runNoFB K nAcc request world

/-! Account storage (the account-storage module: `loadAccounts`,
`loadAccountsFromEnv`). -/

/-- Subscription record persisted per account. -/
structure Subscription where
  tier : String
  projectId : Option String
  detectedAt : Option Nat
  deriving DecidableEq

/-- Default subscription record used when none is stored
(`{ tier: 'unknown', projectId: null, detectedAt: null }`). -/
def defaultSubscription : Subscription := ⟨"unknown", none, none⟩

/-- Quota record persisted per account. -/
structure QuotaRec where
  models : List (String × Option Nat)
  lastChecked : Option Nat
  deriving DecidableEq

/-- Default quota record (`{ models: {}, lastChecked: null }`). -/
def defaultQuota : QuotaRec := ⟨[], none⟩

/-- One account record as stored in the config file; optional fields model
JSON fields that may be absent or null. -/
structure StoredAccount where
  email : String
  source : String
  enabled : Option Bool
  isInvalid : Option Bool
  invalidReason : Option String
  modelRateLimits : Option (List (String × Nat))
  lastUsed : Option Nat
  subscription : Option Subscription
  quota : Option QuotaRec
  deriving DecidableEq

/-- One in-memory account as produced by `loadAccounts`. -/
structure LoadedAccount where
  email : String
  source : String
  enabled : Bool
  isInvalid : Bool
  invalidReason : Option String
  modelRateLimits : List (String × Nat)
  lastUsed : Option Nat
  subscription : Subscription
  quota : QuotaRec
  deriving DecidableEq

/-- Parsed contents of the account config file. -/
structure ConfigData where
  accounts : Option (List StoredAccount)
  activeIndex : Option Nat

/-- Outcome of reading the config file: missing (ENOENT), unreadable
(read or JSON.parse failure), or parsed data. -/
inductive ConfigFile where
  | missing
  | unreadable
  | parsed (c : ConfigData)

/-- Per-account mapping of the account-storage `loadAccounts` (lines 27-38):
spread the stored record, default `lastUsed` to null (JavaScript `||`:
a stored `0` is falsy and becomes null), default `enabled` to true unless
the stored value is literally `false`, reset `isInvalid`/`invalidReason` on
startup, and default `modelRateLimits`, `subscription` and `quota`. -/
def loadStoredAccount (acc : StoredAccount) : LoadedAccount where
  email := acc.email
  source := acc.source
  enabled := acc.enabled ≠ some false
  isInvalid := false
  invalidReason := none
  modelRateLimits := acc.modelRateLimits.getD []
  lastUsed := match acc.lastUsed with
    | some t => if t = 0 then none else some t
    | none => none
  subscription := acc.subscription.getD defaultSubscription
  quota := acc.quota.getD defaultQuota

/-- Result of `loadAccounts`. -/
structure LoadResult where
  accounts : List LoadedAccount
  activeIndex : Nat

/-- Model of the account-storage `loadAccounts` (lines 20-60): a missing or
unreadable config yields the empty result; otherwise each stored account is
mapped through `loadStoredAccount`, and `activeIndex` (defaulted to 0, with
`0` itself falsy under `||`) is clamped to 0 when out of range. -/
def loadAccounts : ConfigFile → LoadResult
  | .missing => ⟨[], 0⟩
  | .unreadable => ⟨[], 0⟩
  | .parsed c =>
    let accounts := (c.accounts.getD []).map loadStoredAccount
    let idx := c.activeIndex.getD 0
    ⟨accounts, if accounts.length ≤ idx then 0 else idx⟩

/-- One entry of the parsed `PROXY_ACCOUNTS` JSON array: a JSON `null`
(member access on it throws a TypeError) or an object with the recognized
optional fields. -/
inductive EnvEntry where
  | nullEntry
  | obj (email refreshTokenSnake refreshTokenCamel apiKeySnake apiKeyCamel : Option String)
  deriving DecidableEq

/-- Value of the `PROXY_ACCOUNTS` environment variable after JSON.parse:
unset, unparsable, parsed to a non-array, or parsed to an array. -/
inductive EnvVal where
  | unset
  | badJson
  | notArray
  | arr (entries : List EnvEntry)

/-- One account built by `loadAccountsFromEnv` (lines 132-144). -/
structure EnvAccount where
  email : String
  source : String
  refreshToken : Option String
  apiKey : Option String
  enabled : Bool
  isInvalid : Bool
  invalidReason : Option String
  modelRateLimits : List (String × Nat)
  fromEnv : Bool
  deriving DecidableEq

/-- Per-entry mapping of `loadAccountsFromEnv` (lines 117-145): skip an
entry without a truthy email; resolve the token and key with `||` across
snake/camel casing; skip when both are falsy; otherwise build the account,
with `source` equal to `'manual'` exactly when the api key is truthy. -/
def mkEnvAccount : EnvEntry → Option (Option EnvAccount)
  | .nullEntry => none
  | .obj email rts rtc aks akc =>
    if !truthyStr email then some none
    else
      let refreshToken := jsOr rts rtc
      let apiKey := jsOr aks akc
      if !truthyStr refreshToken && !truthyStr apiKey then some none
      else
        some (some
          { email := email.getD ""
            source := if truthyStr apiKey then "manual" else "oauth"
            refreshToken := refreshToken
            apiKey := apiKey
            enabled := true
            isInvalid := false
            invalidReason := none
            modelRateLimits := []
            fromEnv := true })

/-- Iteration of `loadAccountsFromEnv` over the parsed array: `none` models
the TypeError raised by accessing `.email` on a `null` entry, which aborts
the loop (and is caught by the surrounding try). -/
def collectEnvAccounts : List EnvEntry → Option (List EnvAccount)
  | [] => some []
  | e :: rest =>
    match mkEnvAccount e with
    | none => none
    | some none => collectEnvAccounts rest
    | some (some a) => (collectEnvAccounts rest).map fun tail => a :: tail

/-- Model of `loadAccountsFromEnv` (lines 103-156): an unset variable, a
parse failure, a non-array value, or a TypeError while iterating all yield
the empty list; otherwise the kept entries are returned in order. -/
def loadAccountsFromEnv : EnvVal → List EnvAccount
  | .unset => []
  | .badJson => []
  | .notArray => []
  | .arr entries => (collectEnvAccounts entries).getD []

/-! Subscription-tier discovery (`src/cloudcode/model-api.js`,
`getSubscriptionTier`, lines 121-184). -/

/-- Shape of the `cloudaicompanionProject` field of a `loadCodeAssist`
response: absent, a string, or an object with an optional `id`. -/
inductive ProjField where
  | missing
  | strVal (s : String)
  | objVal (id : Option String)
  deriving DecidableEq

/-- Fields of a successful `loadCodeAssist` response that the extraction
reads: `paidTier?.id`, `currentTier?.id` and the project field. -/
structure TierData where
  paidTierId : Option String
  currentTierId : Option String
  projectField : ProjField
  deriving DecidableEq

/-- Outcome of the `loadCodeAssist` call against one endpoint: any non-OK
status or thrown fetch/json error is a failure (the loop continues). -/
inductive TierResp where
  | fail
  | ok (d : TierData)

/-- Lower-casing as used by `tierId.toLowerCase()`, character by
character. -/
def toLowerStr (s : String) : String := ⟨s.data.map Char.toLower⟩

/-- JavaScript `hay.includes(needle)` on strings. -/
def includesStr (needle hay : String) : Bool := isSubB needle.data hay.data

/-- Tier classification (model-api.js:162-171): `'ultra'` when the
lower-cased id contains `ultra`, else `'pro'` when it contains `pro`,
else `'free'`. -/
def classifyTier (tierId : String) : String :=
  let lower := toLowerStr tierId
  if includesStr "ultra" lower then "ultra"
  else if includesStr "pro" lower then "pro"
  else "free"

/-- Project-id extraction (model-api.js:150-156): a string field is taken
as-is; an object's `id` is taken when truthy; otherwise null. -/
def extractProjectId : ProjField → Option String
  | .strVal s => some s
  | .objVal id => if truthyStr id then id else none
  | .missing => none

/-- Tier extraction (model-api.js:158-171): `paidTier?.id || currentTier?.id`
with JavaScript truthiness, classified when truthy, else `'free'`. -/
def extractTier (d : TierData) : String :=
  let tierId := jsOr d.paidTierId d.currentTierId
  if truthyStr tierId then classifyTier (tierId.getD "") else "free"

/-- Model of `getSubscriptionTier` (model-api.js:121-184): walk the endpoint
list, returning the extraction of the first successful response; when every
endpoint fails, default to `('free', null)` (lines 181-183). -/
def getSubscriptionTier : List TierResp → String × Option String
  | [] => ("free", none)
  | .fail :: rest => getSubscriptionTier rest
  | .ok d :: _ => (extractTier d, extractProjectId d.projectField)

/-! Theorems. -/

/-- C8: a process restart clears the invalid flag on every persisted
account — for every config file contents, each account returned by
`loadAccounts` has `isInvalid = false` and `invalidReason = null`
regardless of the stored values, while email, source, enabled flag and
modelRateLimits come from the stored record, with `enabled` defaulting to
true when absent (it is true unless the stored value is literally
`false`). -/
theorem loadAccounts_clears_invalid (cfg : ConfigFile) :
    (∀ a ∈ (loadAccounts cfg).accounts, a.isInvalid = false ∧ a.invalidReason = none) ∧
    (∀ c, cfg = ConfigFile.parsed c →
      (loadAccounts cfg).accounts = (c.accounts.getD []).map loadStoredAccount) ∧
    (∀ acc : StoredAccount,
      (loadStoredAccount acc).email = acc.email ∧
      (loadStoredAccount acc).source = acc.source ∧
      ((loadStoredAccount acc).enabled = true ↔ acc.enabled ≠ some false) ∧
      (loadStoredAccount acc).modelRateLimits = acc.modelRateLimits.getD [] ∧
      (loadStoredAccount acc).isInvalid = false ∧
      (loadStoredAccount acc).invalidReason = none) := by
  refine ⟨?_, ?_, ?_⟩
  · intro a ha
    cases cfg with
    | missing => simp [loadAccounts] at ha
    | unreadable => simp [loadAccounts] at ha
    | parsed c =>
      simp only [loadAccounts, List.mem_map] at ha
      obtain ⟨x, _, rfl⟩ := ha
      exact ⟨rfl, rfl⟩
  · rintro c rfl
    rfl
  · intro acc
    exact ⟨rfl, rfl, by simp [loadStoredAccount], rfl, rfl, rfl⟩

/-- Witness for C8: a stored account flagged invalid on disk is loaded
with the flag cleared and the reason nulled, with email, source, enabled
and rate limits taken from the record. -/
theorem loadAccounts_clears_invalid_witness :
    (loadStoredAccount ⟨"user@example.com", "oauth", some false, some true,
        some "token expired", some [("claude", 99)], some 7, none, none⟩).isInvalid = false ∧
    (loadStoredAccount ⟨"user@example.com", "oauth", some false, some true,
        some "token expired", some [("claude", 99)], some 7, none, none⟩).invalidReason = none ∧
    (loadStoredAccount ⟨"user@example.com", "oauth", some false, some true,
        some "token expired", some [("claude", 99)], some 7, none, none⟩).enabled = false ∧
    (loadStoredAccount ⟨"user@example.com", "oauth", some false, some true,
        some "token expired", some [("claude", 99)], some 7, none, none⟩).modelRateLimits
      = [("claude", 99)] := by
  have h := (loadAccounts_clears_invalid
    (.parsed ⟨some [⟨"user@example.com", "oauth", some false, some true,
      some "token expired", some [("claude", 99)], some 7, none, none⟩], some 3⟩)).1
  have hm := h (loadStoredAccount ⟨"user@example.com", "oauth", some false, some true,
      some "token expired", some [("claude", 99)], some 7, none, none⟩)
    (by simp [loadAccounts])
  exact ⟨hm.1, hm.2, by decide, by decide⟩

/-- C9 counterexample: the claim's inclusion criterion fails when the
parsed array contains a JSON `null` entry — accessing `.email` on it throws
a TypeError, the catch handler returns `[]`, and an entry that does have an
email and an API key is nevertheless not included. -/
theorem loadAccountsFromEnv_null_counterexample :
    loadAccountsFromEnv (.arr [.nullEntry,
      .obj (some "user@example.com") none none (some "sk-key") none]) = [] ∧
    truthyStr (some "user@example.com") = true ∧
    truthyStr (jsOr (some "sk-key") none) = true := by
  decide

/-- C9 amended: `loadAccountsFromEnv` is total; it returns `[]` when the
variable is unset, unparsable, or not an array, and also when iteration
hits a `null` entry (the TypeError is caught); when every entry of the
array is a non-null object, an entry is included iff it has a truthy email
and at least one truthy refresh token or API key, and every returned
account has `enabled = true`, `isInvalid = false`, empty
`modelRateLimits`, and source `'manual'` exactly when an API key is
present (otherwise `'oauth'`). -/
theorem loadAccountsFromEnv_behavior :
    loadAccountsFromEnv .unset = [] ∧
    loadAccountsFromEnv .badJson = [] ∧
    loadAccountsFromEnv .notArray = [] ∧
    (∀ entries, (∀ e ∈ entries, e ≠ EnvEntry.nullEntry) →
      loadAccountsFromEnv (.arr entries) =
        entries.filterMap fun e => (mkEnvAccount e).getD none) ∧
    (∀ email rts rtc aks akc,
      (∃ a, mkEnvAccount (.obj email rts rtc aks akc) = some (some a)) ↔
        (truthyStr email = true ∧
          (truthyStr (jsOr rts rtc) = true ∨ truthyStr (jsOr aks akc) = true))) ∧
    (∀ e a, mkEnvAccount e = some (some a) →
      a.enabled = true ∧ a.isInvalid = false ∧ a.modelRateLimits = [] ∧
      a.fromEnv = true ∧
      (a.source = "manual" ↔ truthyStr a.apiKey = true) ∧
      (truthyStr a.apiKey = false → a.source = "oauth")) := by
  refine ⟨rfl, rfl, rfl, ?_, ?_, ?_⟩
  · intro entries hnn
    have : ∀ es, (∀ e ∈ es, e ≠ EnvEntry.nullEntry) →
        collectEnvAccounts es = some (es.filterMap fun e => (mkEnvAccount e).getD none) := by
      intro es
      induction es with
      | nil => intro _; rfl
      | cons e rest ih =>
        intro hns
        have he : e ≠ EnvEntry.nullEntry := hns e (by simp)
        have hrest := ih fun x hx => hns x (by simp [hx])
        cases e with
        | nullEntry => exact absurd rfl he
        | obj em rts rtc aks akc =>
          simp only [collectEnvAccounts, List.filterMap_cons]
          rcases hm : mkEnvAccount (.obj em rts rtc aks akc) with _ | (_ | a)
          · simp [mkEnvAccount] at hm
            split at hm <;> simp_all
            split at hm <;> simp_all
          · simp [hrest]
          · simp [hrest]
    simp [loadAccountsFromEnv, this entries hnn]
  · intro email rts rtc aks akc
    constructor
    · rintro ⟨a, ha⟩
      simp only [mkEnvAccount] at ha
      split at ha
      · simp at ha
      · rename_i hemail
        split at ha
        · simp at ha
        · rename_i htok
          refine ⟨by simpa using hemail, ?_⟩
          by_cases h1 : truthyStr (jsOr rts rtc) = true
          · exact Or.inl h1
          · by_cases h2 : truthyStr (jsOr aks akc) = true
            · exact Or.inr h2
            · exfalso
              simp [Bool.not_eq_true] at h1 h2
              simp [h1, h2] at htok
    · rintro ⟨he, htok⟩
      refine ⟨?_, ?_⟩
      · exact
          { email := email.getD ""
            source := if truthyStr (jsOr aks akc) then "manual" else "oauth"
            refreshToken := jsOr rts rtc
            apiKey := jsOr aks akc
            enabled := true
            isInvalid := false
            invalidReason := none
            modelRateLimits := []
            fromEnv := true }
      · simp only [mkEnvAccount, he]
        have : (!truthyStr (jsOr rts rtc) && !truthyStr (jsOr aks akc)) = false := by
          rcases htok with h | h <;> simp [h]
        simp [this]
  · intro e a ha
    cases e with
    | nullEntry => simp [mkEnvAccount] at ha
    | obj em rts rtc aks akc =>
      simp only [mkEnvAccount] at ha
      split at ha
      · simp at ha
      · split at ha
        · simp at ha
        · simp only [Option.some.injEq] at ha
          subst ha
          refine ⟨rfl, rfl, rfl, rfl, ?_, ?_⟩
          · constructor
            · intro hs
              by_contra hk
              simp [Bool.not_eq_true] at hk
              simp [hk] at hs
            · intro hk
              simp [hk]
          · intro hk
            simp [hk]

/-- Witness for C9's amended claim: a clean two-entry array keeps exactly
the entry with an email and an API key, skipping the entry with no
credential; the kept account is enabled, valid, and `'manual'`-sourced. -/
theorem loadAccountsFromEnv_behavior_witness :
    loadAccountsFromEnv (.arr [.obj (some "a@b.c") none none none (some "sk-1"),
      .obj (some "b@b.c") none none none none]) =
      [⟨"a@b.c", "manual", none, some "sk-1", true, false, none, [], true⟩] := by
  have h := loadAccountsFromEnv_behavior.2.2.2.1
    [.obj (some "a@b.c") none none none (some "sk-1"),
     .obj (some "b@b.c") none none none none]
    (by intro e he; fin_cases he <;> simp)
  rw [h]
  decide

/-- C10: `getSubscriptionTier` never throws (it is a total function of the
endpoint outcomes); its tier is always one of free/pro/ultra; when every
endpoint fails it returns `('free', null)`; and on the first successful
response a truthy `paidTier.id` takes priority over `currentTier.id`, with
the substring `'ultra'` classified before `'pro'` and anything else mapped
to `'free'`. -/
theorem getSubscriptionTier_spec :
    (∀ l, (getSubscriptionTier l).1 = "free" ∨ (getSubscriptionTier l).1 = "pro" ∨
      (getSubscriptionTier l).1 = "ultra") ∧
    (∀ l, (∀ e ∈ l, match e with | TierResp.fail => True | TierResp.ok _ => False) →
      getSubscriptionTier l = ("free", none)) ∧
    (∀ d rest, getSubscriptionTier (.ok d :: rest) =
      (extractTier d, extractProjectId d.projectField)) ∧
    (∀ d : TierData, truthyStr d.paidTierId = true →
      extractTier d = classifyTier (d.paidTierId.getD "")) ∧
    (∀ d : TierData, truthyStr d.paidTierId = false →
      truthyStr d.currentTierId = true →
      extractTier d = classifyTier (d.currentTierId.getD "")) ∧
    (∀ t, includesStr "ultra" (toLowerStr t) = true → classifyTier t = "ultra") ∧
    (∀ t, includesStr "ultra" (toLowerStr t) = false →
      includesStr "pro" (toLowerStr t) = true → classifyTier t = "pro") ∧
    (∀ t, includesStr "ultra" (toLowerStr t) = false →
      includesStr "pro" (toLowerStr t) = false → classifyTier t = "free") := by
  refine ⟨?_, ?_, ?_, ?_, ?_, ?_, ?_, ?_⟩
  · intro l
    induction l with
    | nil => left; rfl
    | cons e rest ih =>
      cases e with
      | fail => exact ih
      | ok d =>
        simp only [getSubscriptionTier, extractTier, classifyTier]
        split
        · split
          · right; right; rfl
          · split
            · right; left; rfl
            · left; rfl
        · left; rfl
  · intro l hl
    induction l with
    | nil => rfl
    | cons e rest ih =>
      cases e with
      | fail => exact ih fun x hx => hl x (by simp [hx])
      | ok d => exact absurd (hl (.ok d) (by simp)) (by simp)
  · intro d rest; rfl
  · intro d hp
    simp [extractTier, jsOr, hp]
  · intro d hp hc
    simp [extractTier, jsOr, hp, hc]
  · intro t hu
    simp [classifyTier, hu]
  · intro t hu hp
    simp [classifyTier, hu, hp]
  · intro t hu hp
    simp [classifyTier, hu, hp]

/-- Witness for C10: all endpoints failing defaults to `('free', null)`;
a paid tier id containing both `ultra` and `pro` classifies as ultra; a
paid id beats a current id. -/
theorem getSubscriptionTier_spec_witness :
    getSubscriptionTier [.fail, .fail] = ("free", none) ∧
    classifyTier "ULTRA-pro-plan" = "ultra" ∧
    extractTier ⟨some "g-pro", some "g-ultra", .missing⟩ = classifyTier "g-pro" := by
  refine ⟨?_, ?_, ?_⟩
  · exact getSubscriptionTier_spec.2.1 [.fail, .fail]
      (by intro e he; fin_cases he <;> trivial)
  · exact getSubscriptionTier_spec.2.2.2.2.2.1 "ULTRA-pro-plan" (by decide)
  · exact getSubscriptionTier_spec.2.2.2.1 ⟨some "g-pro", some "g-ultra", .missing⟩ (by decide)

/-- C5: when no account is immediately selectable (sticky selection
returned none with no wait), all enabled non-invalid accounts are
rate-limited for the model, and the minimum wait exceeds
`MAX_WAIT_BEFORE_ERROR_MS`, the attempt throws the terminal
`RESOURCE_EXHAUSTED` error carrying the wait duration and the
next-available reset time, performing no sleep at all — and because the
throw happens outside the try block, the loop turns it into the run's
error outcome immediately. -/
theorem failFast_when_wait_exceeds_ceiling
    (K : Consts) (request : AnthReq) (inp : AttemptInputs)
    (hs : inp.stickyAcct = none) (hw : inp.stickyWaitMs = 0)
    (hall : inp.allRateLimited = true)
    (hbig : K.MAX_WAIT_BEFORE_ERROR_MS < inp.minWaitMs) :
    attemptOnce K request inp =
      (.terminal (.resourceExhausted request.model inp.minWaitMs (K.now + inp.minWaitMs)),
       ⟨none, []⟩) ∧
    (∀ (nAcc : Nat) (world : Nat → AttemptInputs), world 0 = inp →
      (runNoFB K nAcc request world).outcome =
        .error (.resourceExhausted request.model inp.minWaitMs (K.now + inp.minWaitMs))) := by
  have hstep : attemptOnce K request inp =
      (.terminal (.resourceExhausted request.model inp.minWaitMs (K.now + inp.minWaitMs)),
       ⟨none, []⟩) := by
    simp [attemptOnce, selectPhase, hs, hw, hall, hbig]
  refine ⟨hstep, ?_⟩
  intro nAcc world hw0
  have hpos : 0 < maxAttempts K nAcc :=
    Nat.lt_of_lt_of_le (Nat.succ_pos nAcc) (Nat.le_max_right _ _)
  obtain ⟨m, hm⟩ : ∃ m, maxAttempts K nAcc = m + 1 :=
    ⟨maxAttempts K nAcc - 1, (Nat.succ_pred_eq_of_pos hpos).symm⟩
  have hloop : loopAux K request world (maxAttempts K nAcc) 0 =
      (.terminal (.resourceExhausted request.model inp.minWaitMs (K.now + inp.minWaitMs)),
       [⟨none, []⟩]) := by
    rw [hm]
    simp [loopAux, hw0, hstep]
  simp [runNoFB, hloop]

/-- Witness for C5: with a 2-minute ceiling and a 10-minute minimum wait,
the attempt fails fast with the terminal error and an empty action trace. -/
theorem failFast_when_wait_exceeds_ceiling_witness :
    attemptOnce ⟨3, 3, 120000, 2, 1000, "m"⟩ ⟨"claude", 0⟩
      ⟨none, 0, none, true, 600000, none, none, .ok 0, .ok 0, fun _ => .netThrow []⟩ =
      (.terminal (.resourceExhausted "claude" 600000 601000), ⟨none, []⟩) :=
  (failFast_when_wait_exceeds_ceiling ⟨3, 3, 120000, 2, 1000, "m"⟩ ⟨"claude", 0⟩
    ⟨none, 0, none, true, 600000, none, none, .ok 0, .ok 0, fun _ => .netThrow []⟩
    rfl rfl rfl (by decide)).1

/-- Backoff trace of the empty-response retry loop when every attempt
raises `EmptyResponseError`: before zero-based retry `k + k0` the loop
sleeps `500 * 2 ^ (k + k0)` ms and re-issues the same request. -/
def backoffTrace (req : ReqData) : Nat → Nat → List Act
  | _, 0 => []
  | k, m + 1 => .sleep (500 * 2 ^ k) :: .refetch req :: backoffTrace req (k + 1) m

theorem backoffTrace_getD (req : ReqData) :
    ∀ m k0 k, k < m →
      (backoffTrace req k0 m).getD (2 * k) (.sleep 0) = .sleep (500 * 2 ^ (k0 + k)) ∧
      (backoffTrace req k0 m).getD (2 * k + 1) (.sleep 0) = .refetch req := by
  intro m
  induction m with
  | zero => intro k0 k hk; omega
  | succ n ih =>
    intro k0 k hk
    cases k with
    | zero => simp [backoffTrace]
    | succ j =>
      have h1 : 2 * (j + 1) = 2 * j + 1 + 1 := by omega
      have h2 : 2 * (j + 1) + 1 = (2 * j + 1) + 1 + 1 := by omega
      have hrec := ih (k0 + 1) j (by omega)
      constructor
      · rw [h1]
        simp only [backoffTrace, List.getD_cons_succ]
        rw [hrec.1]
        have : k0 + 1 + j = k0 + (j + 1) := by omega
        rw [this]
      · rw [h2]
        simp only [backoffTrace, List.getD_cons_succ]
        exact hrec.2

theorem backoffTrace_refetch_mem (req : ReqData) :
    ∀ m k0, ∀ a ∈ backoffTrace req k0 m, ∀ r, a = .refetch r → r = req := by
  intro m
  induction m with
  | zero => intro k0 a ha; simp [backoffTrace] at ha
  | succ n ih =>
    intro k0 a ha r har
    simp only [backoffTrace, List.mem_cons] at ha
    rcases ha with rfl | rfl | ha
    · simp at har
    · simpa using har.symm
    · exact ih (k0 + 1) a ha r har

/-- Run of the empty-response retry loop in which streaming raises
`EmptyResponseError` at every attempt and every refetch returns a 2xx
response: it ends by emitting the synthetic fallback, and its action trace
is exactly the backoff trace. -/
theorem emptyRetryLoop_all_empty (R : Nat) (msgId : String) (email : Nat) (req : ReqData) :
    ∀ m k, k + m = R →
      emptyRetryLoop R msgId email req k .emptyResp
          (List.replicate m (.okStream .emptyResp)) =
        (.fallbackEmitted (emitEmptyResponseFallback msgId req.model), backoffTrace req k m) := by
  intro m
  induction m with
  | zero =>
    intro k hk
    have hle : R ≤ k := by omega
    simp [emptyRetryLoop, hle, backoffTrace]
  | succ n ih =>
    intro k hk
    have hlt : ¬ R ≤ k := by omega
    have hrec := ih (k + 1) (by omega)
    simp only [List.replicate_succ, emptyRetryLoop, hlt, if_false, hrec, backoffTrace]

/-- C6: in the empty-response retry loop, the backoff delay before
zero-based retry `k` is `500 * 2 ^ k` ms (500, 1000, 2000 for the first
three retries), and every re-issued request is the same as the original
attempt's: same endpoint URL, same `buildHeaders(token, model,
'text/event-stream')` arguments, same payload. -/
theorem empty_retry_backoff_same_request (R : Nat) (msgId : String) (email : Nat)
    (req : ReqData) :
    emptyRetryLoop R msgId email req 0 .emptyResp
        (List.replicate R (.okStream .emptyResp)) =
      (.fallbackEmitted (emitEmptyResponseFallback msgId req.model), backoffTrace req 0 R) ∧
    (∀ k, k < R →
      (backoffTrace req 0 R).getD (2 * k) (.sleep 0) = .sleep (500 * 2 ^ k) ∧
      (backoffTrace req 0 R).getD (2 * k + 1) (.sleep 0) = .refetch req) ∧
    (∀ a ∈ backoffTrace req 0 R, ∀ r, a = .refetch r → r = req) := by
  refine ⟨emptyRetryLoop_all_empty R msgId email req R 0 (by omega), ?_, ?_⟩
  · intro k hk
    simpa using backoffTrace_getD req R 0 k hk
  · exact backoffTrace_refetch_mem req R 0

/-- Witness for C6 at the concrete bound 3: the delays before retries 0, 1
and 2 are 500 ms, 1000 ms and 2000 ms, and the re-issued requests equal
the original. -/
theorem empty_retry_backoff_same_request_witness :
    (backoffTrace ⟨0, 9, "claude", ("claude", 0), 4⟩ 0 3).getD 0 (.sleep 0) = .sleep 500 ∧
    (backoffTrace ⟨0, 9, "claude", ("claude", 0), 4⟩ 0 3).getD 2 (.sleep 0) = .sleep 1000 ∧
    (backoffTrace ⟨0, 9, "claude", ("claude", 0), 4⟩ 0 3).getD 4 (.sleep 0) = .sleep 2000 ∧
    (backoffTrace ⟨0, 9, "claude", ("claude", 0), 4⟩ 0 3).getD 1 (.sleep 0) =
      .refetch ⟨0, 9, "claude", ("claude", 0), 4⟩ := by
  have h := (empty_retry_backoff_same_request 3 "id" 7 ⟨0, 9, "claude", ("claude", 0), 4⟩).2.1
  refine ⟨?_, ?_, ?_, ?_⟩
  · simpa using (h 0 (by decide)).1
  · simpa using (h 1 (by decide)).1
  · simpa using (h 2 (by decide)).1
  · simpa using (h 0 (by decide)).2

/-- Attempt in which the selected account streams `EmptyResponseError` on
the initial response and on every refetch: the endpoint loop returns the
synthetic fallback as a successful stream. -/
theorem attemptOnce_empty_fallback
    (K : Consts) (request : AnthReq) (inp : AttemptInputs) (a tok proj : Nat)
    (hK : 0 < K.numEndpoints)
    (hsel : inp.stickyAcct = some a)
    (htok : inp.tokenRes = .ok tok)
    (hproj : inp.projectRes = .ok proj)
    (hfetch : inp.fetches 0 = .ok .emptyResp
      (List.replicate K.MAX_EMPTY_RESPONSE_RETRIES (.okStream .emptyResp))) :
    attemptOnce K request inp =
      (.success (emitEmptyResponseFallback K.msgId request.model),
       ⟨some a, backoffTrace ⟨0, tok, request.model, (request.model, request.rest), proj⟩ 0
          K.MAX_EMPTY_RESPONSE_RETRIES⟩) := by
  obtain ⟨r, hr⟩ : ∃ r, K.numEndpoints = r + 1 := ⟨K.numEndpoints - 1, by omega⟩
  have hinner := emptyRetryLoop_all_empty K.MAX_EMPTY_RESPONSE_RETRIES K.msgId a
    ⟨0, tok, request.model, (request.model, request.rest), proj⟩
    K.MAX_EMPTY_RESPONSE_RETRIES 0 (by omega)
  simp [attemptOnce, selectPhase, hsel, htok, hproj, endpointLoop, hr, endpointGo,
    hfetch, mkReq, hinner]

theorem loopAux_first_success
    (K : Consts) (request : AnthReq) (world : Nat → AttemptInputs)
    (m i : Nat) (evs : List SSEEvent) (r : AttemptRec)
    (h : attemptOnce K request (world i) = (.success evs, r)) :
    loopAux K request world (m + 1) i = (.success evs, [r]) := by
  simp [loopAux, h]

theorem runNoFB_first_success
    (K : Consts) (nAcc : Nat) (request : AnthReq) (world : Nat → AttemptInputs)
    (evs : List SSEEvent) (r : AttemptRec)
    (h : attemptOnce K request (world 0) = (.success evs, r)) :
    runNoFB K nAcc request world = ⟨.ok evs, [⟨request.model, false, [r]⟩]⟩ := by
  have hpos : 0 < maxAttempts K nAcc :=
    Nat.lt_of_lt_of_le (Nat.succ_pos nAcc) (Nat.le_max_right _ _)
  obtain ⟨m, hm⟩ : ∃ m, maxAttempts K nAcc = m + 1 :=
    ⟨maxAttempts K nAcc - 1, (Nat.succ_pred_eq_of_pos hpos).symm⟩
  unfold runNoFB
  rw [hm, loopAux_first_success K request world m 0 evs r h]

/-- Event-shape predicates used to state the well-formedness of the
synthetic fallback sequence. -/
def isMsgStartEv : SSEEvent → Bool
  | .messageStart _ _ => true
  | _ => false

def isBlockStartEv : SSEEvent → Bool
  | .contentBlockStart _ _ _ => true
  | _ => false

def isBlockDeltaEv : SSEEvent → Bool
  | .contentBlockDelta _ _ _ => true
  | _ => false

def isBlockStopEv : SSEEvent → Bool
  | .contentBlockStop _ => true
  | _ => false

def isMsgDeltaEv : SSEEvent → Bool
  | .messageDelta _ => true
  | _ => false

def isMsgStopEv : SSEEvent → Bool
  | .messageStop => true
  | _ => false

/-- C3: if `MAX_EMPTY_RESPONSE_RETRIES = R` and all `R + 1` consecutive
streaming attempts (the initial response plus the `R` refetches) raise
`EmptyResponseError`, `sendMessageStream` yields exactly one synthetic
fallback text block with normal termination (`stop_reason 'end_turn'`) as
a complete well-formed event sequence — one message_start; one
content_block_start, one delta and one content_block_stop at index 0; one
message_delta; one message_stop — and returns without raising any error. -/
theorem empty_exhaustion_yields_fallback_stream
    (K : Consts) (nAcc : Nat) (request : AnthReq) (world : Nat → AttemptInputs)
    (a tok proj : Nat) (hK : 0 < K.numEndpoints)
    (hsel : (world 0).stickyAcct = some a)
    (htok : (world 0).tokenRes = .ok tok)
    (hproj : (world 0).projectRes = .ok proj)
    (hfetch : (world 0).fetches 0 = .ok .emptyResp
      (List.replicate K.MAX_EMPTY_RESPONSE_RETRIES (.okStream .emptyResp))) :
    (runNoFB K nAcc request world).outcome =
      .ok (emitEmptyResponseFallback K.msgId request.model) ∧
    emitEmptyResponseFallback K.msgId request.model =
      [ .messageStart K.msgId request.model,
        .contentBlockStart 0 "text" "",
        .contentBlockDelta 0 "text_delta"
          "[No response after retries - please try again]",
        .contentBlockStop 0,
        .messageDelta "end_turn",
        .messageStop ] ∧
    (emitEmptyResponseFallback K.msgId request.model).countP isMsgStartEv = 1 ∧
    (emitEmptyResponseFallback K.msgId request.model).countP isBlockStartEv = 1 ∧
    (emitEmptyResponseFallback K.msgId request.model).countP isBlockDeltaEv = 1 ∧
    (emitEmptyResponseFallback K.msgId request.model).countP isBlockStopEv = 1 ∧
    (emitEmptyResponseFallback K.msgId request.model).countP isMsgDeltaEv = 1 ∧
    (emitEmptyResponseFallback K.msgId request.model).countP isMsgStopEv = 1 := by
  have hstep := attemptOnce_empty_fallback K request (world 0) a tok proj hK hsel htok
    hproj hfetch
  rw [runNoFB_first_success K nAcc request world _ _ hstep]
  refine ⟨rfl, rfl, ?_, ?_, ?_, ?_, ?_, ?_⟩ <;>
    simp [emitEmptyResponseFallback, List.countP_cons, isMsgStartEv, isBlockStartEv,
      isBlockDeltaEv, isBlockStopEv, isMsgDeltaEv, isMsgStopEv]

/-- Witness for C3: a concrete single-account, single-endpoint world whose
every streaming attempt is empty produces the fallback stream as the run's
successful outcome. -/
theorem empty_exhaustion_yields_fallback_stream_witness :
    (runNoFB ⟨3, 3, 120000, 1, 1000, "msg-1"⟩ 1 ⟨"claude", 0⟩
      (fun _ => ⟨some 5, 0, none, false, 0, none, none, .ok 9, .ok 4,
        fun _ => .ok .emptyResp (List.replicate 3 (.okStream .emptyResp))⟩)).outcome =
      .ok (emitEmptyResponseFallback "msg-1" "claude") :=
  (empty_exhaustion_yields_fallback_stream ⟨3, 3, 120000, 1, 1000, "msg-1"⟩ 1 ⟨"claude", 0⟩
    (fun _ => ⟨some 5, 0, none, false, 0, none, none, .ok 9, .ok 4,
      fun _ => .ok .emptyResp (List.replicate 3 (.okStream .emptyResp))⟩)
    5 9 4 (by decide) rfl rfl rfl rfl).1

/-- Invariant of the endpoint loop on an all-429 suffix: starting from a
recorded 429 with truthy reset `v`, the loop ends by marking the account
rate-limited with a reset time that is one of the observed values and is a
lower bound of all of them (i.e. the minimum). -/
theorem endpointGo_all429_min (c : AttemptCtx) (scr : Nat → FetchRes)
    (b : Nat → List Char) (rv : Nat → Nat) :
    ∀ remaining idx v body0,
      (∀ j, j < remaining →
        scr (idx + j) = .httpStatus 429 (b (idx + j)) (some (rv (idx + j)))) →
      (∀ j, j < remaining → 0 < rv (idx + j)) →
      0 < v →
      ∃ w bw, endpointGo c scr idx remaining (.e429 (some v) body0) =
          (.threw (.rateLimited (some w) bw),
           [.markRateLimited c.email (some w) c.model]) ∧
        (w = v ∨ ∃ j, j < remaining ∧ w = rv (idx + j)) ∧
        w ≤ v ∧ (∀ j, j < remaining → w ≤ rv (idx + j)) := by
  intro remaining
  induction remaining with
  | zero =>
    intro idx v body0 _ _ _
    exact ⟨v, body0, rfl, Or.inl rfl, le_refl v, fun j hj => absurd hj (by omega)⟩
  | succ n ih =>
    intro idx v body0 hscr hpos hv
    have h0 : scr idx = .httpStatus 429 (b idx) (some (rv idx)) := by
      have h := hscr 0 (by omega); simpa using h
    have hrv0 : 0 < rv idx := by
      have h := hpos 0 (by omega); simpa using h
    have hshift_scr : ∀ j, j < n →
        scr (idx + 1 + j) = .httpStatus 429 (b (idx + 1 + j)) (some (rv (idx + 1 + j))) := by
      intro j hj
      have h := hscr (j + 1) (by omega)
      have he : idx + (j + 1) = idx + 1 + j := by omega
      rwa [he] at h
    have hshift_pos : ∀ j, j < n → 0 < rv (idx + 1 + j) := by
      intro j hj
      have h := hpos (j + 1) (by omega)
      have he : idx + (j + 1) = idx + 1 + j := by omega
      rwa [he] at h
    have hvne : v ≠ 0 := by omega
    have hrvne : rv idx ≠ 0 := by omega
    by_cases hlt : rv idx < v
    · have hu : update429 (.e429 (some v) body0) (some (rv idx)) (b idx) =
          .e429 (some (rv idx)) (b idx) := by
        simp [update429, truthyNum, hvne, hrvne, hlt]
      obtain ⟨w, bw, heq, hmem, hle, hall⟩ :=
        ih (idx + 1) (rv idx) (b idx) hshift_scr hshift_pos hrv0
      refine ⟨w, bw, ?_, ?_, ?_, ?_⟩
      · simp only [endpointGo, h0]
        norm_num
        rw [hu]
        exact heq
      · rcases hmem with rfl | ⟨j, hj, hwj⟩
        · exact Or.inr ⟨0, by omega, by simp⟩
        · refine Or.inr ⟨j + 1, by omega, ?_⟩
          have he : idx + (j + 1) = idx + 1 + j := by omega
          rw [he]; exact hwj
      · exact le_trans hle (le_of_lt hlt)
      · intro j hj
        cases j with
        | zero => simpa using hle
        | succ jj =>
          have he : idx + (jj + 1) = idx + 1 + jj := by omega
          rw [he]
          exact hall jj (by omega)
    · have hu : update429 (.e429 (some v) body0) (some (rv idx)) (b idx) =
          .e429 (some v) body0 := by
        simp [update429, truthyNum, hvne, hrvne, hlt]
      obtain ⟨w, bw, heq, hmem, hle, hall⟩ :=
        ih (idx + 1) v body0 hshift_scr hshift_pos hv
      refine ⟨w, bw, ?_, ?_, hle, ?_⟩
      · simp only [endpointGo, h0]
        norm_num
        rw [hu]
        exact heq
      · rcases hmem with rfl | ⟨j, hj, hwj⟩
        · exact Or.inl rfl
        · refine Or.inr ⟨j + 1, by omega, ?_⟩
          have he : idx + (j + 1) = idx + 1 + j := by omega
          rw [he]; exact hwj
      · intro j hj
        cases j with
        | zero =>
          simp only [Nat.add_zero]
          omega
        | succ jj =>
          have he : idx + (jj + 1) = idx + 1 + jj := by omega
          rw [he]
          exact hall jj (by omega)

/-- C4: when an attempt's iteration over the endpoint list ends with every
endpoint having returned HTTP 429 (each offering a positive reset time),
the account is marked rate-limited with the minimum reset time observed
across those 429 responses, and the attempt ends in rotation — the loop
moves on to select another account instead of raising. -/
theorem all_endpoints_429_marks_min_reset
    (K : Consts) (request : AnthReq) (inp : AttemptInputs) (a tok proj : Nat)
    (b : Nat → List Char) (rv : Nat → Nat)
    (hK : 0 < K.numEndpoints)
    (hsel : inp.stickyAcct = some a)
    (htok : inp.tokenRes = .ok tok)
    (hproj : inp.projectRes = .ok proj)
    (hf : ∀ i, i < K.numEndpoints → inp.fetches i = .httpStatus 429 (b i) (some (rv i)))
    (hpos : ∀ i, i < K.numEndpoints → 0 < rv i) :
    ∃ w, (∃ i, i < K.numEndpoints ∧ w = rv i) ∧
      (∀ i, i < K.numEndpoints → w ≤ rv i) ∧
      attemptOnce K request inp =
        (.rotate, ⟨some a, [.markRateLimited a (some w) request.model]⟩) := by
  obtain ⟨r, hr⟩ : ∃ r, K.numEndpoints = r + 1 := ⟨K.numEndpoints - 1, by omega⟩
  have h0 : inp.fetches 0 = .httpStatus 429 (b 0) (some (rv 0)) := hf 0 hK
  have hrv0 : 0 < rv 0 := hpos 0 hK
  have hshift_scr : ∀ j, j < r →
      inp.fetches (0 + 1 + j) = .httpStatus 429 (b (0 + 1 + j)) (some (rv (0 + 1 + j))) := by
    intro j hj
    exact hf (1 + j) (by omega)
  have hshift_pos : ∀ j, j < r → 0 < rv (0 + 1 + j) := by
    intro j hj
    exact hpos (1 + j) (by omega)
  obtain ⟨w, bw, heq, hmem, hle, hall⟩ :=
    endpointGo_all429_min
      ⟨K.MAX_EMPTY_RESPONSE_RETRIES, K.msgId, a, tok, proj,
       request.model, (request.model, request.rest), r + 1⟩
      inp.fetches b rv r 1 (rv 0) (b 0) (by simpa using hshift_scr)
      (by simpa using hshift_pos) hrv0
  refine ⟨w, ?_, ?_, ?_⟩
  · rcases hmem with rfl | ⟨j, hj, hwj⟩
    · exact ⟨0, by omega, rfl⟩
    · exact ⟨1 + j, by omega, hwj⟩
  · intro i hi
    cases i with
    | zero => exact hle
    | succ jj =>
      have h := hall jj (by omega)
      rwa [show 0 + 1 + jj = jj + 1 by omega] at h
  · simp only [attemptOnce, selectPhase, hsel, htok, hproj]
    have hend : endpointLoop
        ⟨K.MAX_EMPTY_RESPONSE_RETRIES, K.msgId, a, tok, proj,
         request.model, (request.model, request.rest), K.numEndpoints⟩ inp.fetches =
        (.threw (.rateLimited (some w) bw),
         [.markRateLimited a (some w) request.model]) := by
      unfold endpointLoop
      simp only [hr]
      simp only [endpointGo, h0]
      norm_num
      have hu : update429 .noneYet (some (rv 0)) (b 0) = .e429 (some (rv 0)) (b 0) := by
        simp [update429]
      rw [hu]
      simpa using heq
    simp [hend, applyOuter, outerClassify, isRateLimitErr]

/-- Witness for C4: two endpoints answering 429 with reset times 7000 ms
then 3000 ms mark the account with the minimum, 3000 ms, and rotate. -/
theorem all_endpoints_429_marks_min_reset_witness :
    attemptOnce ⟨3, 3, 120000, 2, 1000, "m"⟩ ⟨"claude", 0⟩
      ⟨some 5, 0, none, false, 0, none, none, .ok 9, .ok 4,
        fun i => .httpStatus 429 [] (some (if i = 0 then 7000 else 3000))⟩ =
      (.rotate, ⟨some 5, [.markRateLimited 5 (some 3000) "claude"]⟩) := by
  obtain ⟨w, ⟨i, hi, hwi⟩, hmin, heq⟩ :=
    all_endpoints_429_marks_min_reset ⟨3, 3, 120000, 2, 1000, "m"⟩ ⟨"claude", 0⟩
      ⟨some 5, 0, none, false, 0, none, none, .ok 9, .ok 4,
        fun i => .httpStatus 429 [] (some (if i = 0 then 7000 else 3000))⟩
      5 9 4 (fun _ => []) (fun i => if i = 0 then 7000 else 3000)
      (by decide) rfl rfl rfl
      (by intro i hi; interval_cases i <;> rfl)
      (by intro i hi; interval_cases i <;> decide)
  have h1 : w ≤ 3000 := by simpa using hmin 1 (by decide)
  have hw : w = 3000 := by
    interval_cases i
    · simp at hwi; omega
    · simpa using hwi
  rw [hw] at heq
  exact heq

/-- Message of an `API error` recorded at streaming-handler.js:147 for a
5xx status always contains the substring `API error 5`. -/
theorem isSubB_apiError5 {s : Nat} (body : List Char) (h1 : 500 ≤ s) (h2 : s < 600) :
    isSubB ("API error 5").data (errMessage (.apiError s body)) = true := by
  have h5 := natToChars_5xx h1 h2
  have hsplit : ("API error 5").data = ("API error ").data ++ ['5'] := rfl
  apply isSubB_of_isPrefB
  rw [hsplit]
  show isPrefB _ (("API error ").data ++ natToChars s ++ (": ").data ++ body) = true
  rw [h5]
  have hassoc :
      ("API error ").data ++
          ('5' :: [Nat.digitChar (s / 10 % 10), Nat.digitChar (s % 10)]) ++
          (": ").data ++ body =
        ("API error ").data ++
          ('5' :: ([Nat.digitChar (s / 10 % 10), Nat.digitChar (s % 10)] ++
            (": ").data ++ body)) := by
    simp
  rw [hassoc]
  exact isPrefB_append_left _ _ _ (by simp [isPrefB])

/-- C7 amended: every error recorded by the endpoint loop as
`API error <status>` with a 5xx status that escapes the loop is treated as
a soft failure — the outer catch advances the pool's rotation pointer
(`pickNext`) and the attempt continues instead of propagating — and any
upstream `API error` that is thrown immediately is necessarily non-5xx.
(The original claim fails for 5xx failures that surface through the
empty-response retry path with a status other than 500/503: see the
counterexample.) -/
theorem apiError_5xx_soft_rotation (s : Nat) (body : List Char)
    (h1 : 500 ≤ s) (h2 : s < 600) :
    outerClassify (.apiError s body) = .rotateAdvance ∧
    applyOuter (.apiError s body) = (.rotate, [.pickNextCall]) ∧
    (∀ s' body', outerClassify (.apiError s' body') = .rethrow →
      ¬(500 ≤ s' ∧ s' < 600)) := by
  have hsub := isSubB_apiError5 body h1 h2
  refine ⟨?_, ?_, ?_⟩
  · simp [outerClassify, isRateLimitErr, isAuthErr, hsub]
  · simp [applyOuter, outerClassify, isRateLimitErr, isAuthErr, hsub]
  · rintro s' body' hre ⟨h1', h2'⟩
    have hsub' := isSubB_apiError5 body' h1' h2'
    simp [outerClassify, isRateLimitErr, isAuthErr, hsub'] at hre

/-- Witness for C7's amended claim: an `API error 502` escaping the
endpoint loop is classified soft and the attempt rotates with a
`pickNext` call. -/
theorem apiError_5xx_soft_rotation_witness :
    outerClassify (.apiError 502 ("upstream broke").data) = .rotateAdvance ∧
    applyOuter (.apiError 502 ("upstream broke").data) = (.rotate, [.pickNextCall]) :=
  ⟨(apiError_5xx_soft_rotation 502 ("upstream broke").data (by decide) (by decide)).1,
   (apiError_5xx_soft_rotation 502 ("upstream broke").data (by decide) (by decide)).2.1⟩

/-- C7 counterexample: a 5xx upstream error that escapes the endpoint loop
is NOT always treated as soft.  Concretely: the only streaming endpoint
returns 2xx, streaming is empty, and both refetches of the empty-response
retry path return HTTP 502; the resulting
`Empty response retry failed: 502 - ...` error escapes the endpoint loop
(the second endpoint's 401 leaves `lastError` untouched), fails every
substring check of the outer catch (it contains neither `API error 5` nor
`500` nor `503`), and is re-thrown to the client immediately — on the very
first attempt, although `maxAttempts = 3` attempts were available. -/
theorem upstream_5xx_rethrown_counterexample :
    (attemptOnce ⟨3, 3, 120000, 2, 1000, "m"⟩ ⟨"claude", 0⟩
      ⟨some 1, 0, none, false, 0, none, none, .ok 11, .ok 22,
        fun i => if i = 0 then
            .ok .emptyResp [.httpStatus 502 ("bad gateway").data none,
                            .httpStatus 502 ("bad gateway").data none]
          else .httpStatus 401 ("auth").data none⟩).1 =
      .terminal (.emptyRetryFailed 502 ("bad gateway").data) ∧
    500 ≤ 502 ∧ 502 < 600 ∧
    outerClassify (.emptyRetryFailed 502 ("bad gateway").data) = .rethrow ∧
    2 ≤ maxAttempts ⟨3, 3, 120000, 2, 1000, "m"⟩ 1 := by
  decide

theorem runNoFB_runs (K : Consts) (nAcc : Nat) (request : AnthReq)
    (world : Nat → AttemptInputs) :
    (runNoFB K nAcc request world).runs =
      [⟨request.model, false, (loopAux K request world (maxAttempts K nAcc) 0).2⟩] := by
  unfold runNoFB
  rcases h : loopAux K request world (maxAttempts K nAcc) 0 with ⟨out, recs⟩
  cases out <;> simp [h]

theorem runNoFB_exhausted (K : Consts) (nAcc : Nat) (request : AnthReq)
    (world : Nat → AttemptInputs)
    (h : (loopAux K request world (maxAttempts K nAcc) 0).1 = .exhausted) :
    (runNoFB K nAcc request world).outcome = .error .maxRetriesExceeded := by
  unfold runNoFB
  rcases hl : loopAux K request world (maxAttempts K nAcc) 0 with ⟨out, recs⟩
  rw [hl] at h
  simp only at h
  subst h
  rfl

/-- C2: model-fallback substitution fires at most once per original
request.  A `sendMessageStream` run performs at most one nested run; every
nested run is issued with `fallbackEnabled = false` (the literal `false`
argument at streaming-handler.js:97,294); and when the fallback model is
itself fully exhausted, the second exhaustion is terminal: the overall
outcome is the `Max retries exceeded` error, with exactly two recorded
runs, the second of which ran the fallback model with fallback disabled. -/
theorem fallback_fires_at_most_once
    (K : Consts) (nAcc : Nat) (fbMap : String → Option String)
    (request : AnthReq) (world fbWorld : Nat → AttemptInputs) (fb : Bool) :
    (sendMessageStream K nAcc fbMap request world fbWorld fb).runs.length ≤ 2 ∧
    (∀ rr ∈ (sendMessageStream K nAcc fbMap request world fbWorld fb).runs.tail,
      rr.fallbackEnabled = false) ∧
    (fb = false →
      (sendMessageStream K nAcc fbMap request world fbWorld fb).runs.length = 1) ∧
    (∀ fm, fb = true → fbMap request.model = some fm →
      (loopAux K request world (maxAttempts K nAcc) 0).1 = .exhausted →
      (loopAux K { request with model := fm } fbWorld (maxAttempts K nAcc) 0).1 =
        .exhausted →
      (sendMessageStream K nAcc fbMap request world fbWorld fb).outcome =
          .error .maxRetriesExceeded ∧
      (sendMessageStream K nAcc fbMap request world fbWorld fb).runs.length = 2 ∧
      ((sendMessageStream K nAcc fbMap request world fbWorld fb).runs.getD 1
          ⟨"", true, []⟩).fallbackEnabled = false ∧
      ((sendMessageStream K nAcc fbMap request world fbWorld fb).runs.getD 1
          ⟨"", true, []⟩).model = fm) := by
  cases fb with
  | false =>
    have ht : sendMessageStream K nAcc fbMap request world fbWorld false =
        runNoFB K nAcc request world := by
      simp [sendMessageStream]
    simp only [ht]
    refine ⟨by rw [runNoFB_runs]; simp, by rw [runNoFB_runs]; simp,
      fun _ => by rw [runNoFB_runs]; rfl, fun fm hfb _ _ _ => by simp at hfb⟩
  | true =>
    have ht : sendMessageStream K nAcc fbMap request world fbWorld true =
        runWithFB K nAcc fbMap request world fbWorld := by
      simp [sendMessageStream]
    simp only [ht]
    unfold runWithFB
    rcases hl : loopAux K request world (maxAttempts K nAcc) 0 with ⟨out, recs⟩
    cases out with
    | success evs =>
      refine ⟨by simp, by simp, by simp, ?_⟩
      intro fm _ _ hex _
      simp at hex
    | terminal e =>
      refine ⟨by simp, by simp, by simp, ?_⟩
      intro fm _ _ hex _
      simp at hex
    | undersupplied =>
      refine ⟨by simp, by simp, by simp, ?_⟩
      intro fm _ _ hex _
      simp at hex
    | noAccount =>
      rcases hm : fbMap request.model with _ | fm
      · refine ⟨by simp, by simp, by simp, ?_⟩
        intro fm' _ hm' _ _
        simp at hm'
      · refine ⟨?_, ?_, by simp, ?_⟩
        · simp [runNoFB_runs]
        · simp [runNoFB_runs]
        · intro fm' _ _ hex _
          simp at hex
    | exhausted =>
      rcases hm : fbMap request.model with _ | fm
      · refine ⟨by simp, by simp, by simp, ?_⟩
        intro fm' _ hm' _ _
        simp at hm'
      · refine ⟨?_, ?_, by simp, ?_⟩
        · simp [runNoFB_runs]
        · simp [runNoFB_runs]
        · intro fm' _ hm' _ hex2
          simp only [Option.some.injEq] at hm'
          subst hm'
          refine ⟨?_, ?_, ?_, ?_⟩
          · simpa using runNoFB_exhausted K nAcc { request with model := fm } fbWorld hex2
          · simp [runNoFB_runs]
          · simp [runNoFB_runs]
          · simp [runNoFB_runs]

/-- A world in which the single configured account is always selected and
every endpoint answers 429, so every attempt rotates and the retry loop
exhausts. -/
def exhaustWorld : Nat → AttemptInputs := fun _ =>
  ⟨some 7, 0, none, false, 0, none, none, .ok 1, .ok 2,
    fun _ => .httpStatus 429 [] (some 5000)⟩

/-- Fallback mapping used by the C2 witness. -/
def fbMapClaude : String → Option String :=
  fun m => if m = "claude-opus" then some "gemini-pro" else none

/-- Witness for C2: with both the original and the fallback model fully
exhausted, the overall run errors with `Max retries exceeded` after
exactly two recorded runs, the nested one with fallback disabled and the
mapped model. -/
theorem fallback_fires_at_most_once_witness :
    (sendMessageStream ⟨1, 3, 120000, 1, 1000, "m"⟩ 0 fbMapClaude ⟨"claude-opus", 0⟩
        exhaustWorld exhaustWorld true).outcome = .error .maxRetriesExceeded ∧
    (sendMessageStream ⟨1, 3, 120000, 1, 1000, "m"⟩ 0 fbMapClaude ⟨"claude-opus", 0⟩
        exhaustWorld exhaustWorld true).runs.length = 2 ∧
    ((sendMessageStream ⟨1, 3, 120000, 1, 1000, "m"⟩ 0 fbMapClaude ⟨"claude-opus", 0⟩
        exhaustWorld exhaustWorld true).runs.getD 1 ⟨"", true, []⟩).fallbackEnabled = false ∧
    ((sendMessageStream ⟨1, 3, 120000, 1, 1000, "m"⟩ 0 fbMapClaude ⟨"claude-opus", 0⟩
        exhaustWorld exhaustWorld true).runs.getD 1 ⟨"", true, []⟩).model = "gemini-pro" := by
  have h := (fallback_fires_at_most_once ⟨1, 3, 120000, 1, 1000, "m"⟩ 0 fbMapClaude
    ⟨"claude-opus", 0⟩ exhaustWorld exhaustWorld true).2.2.2 "gemini-pro" rfl
    (by decide) (by decide) (by decide)
  exact h

/-- Accounts selected by the recorded attempts, in order. -/
def selectionsOf (recs : List AttemptRec) : List Nat :=
  recs.filterMap (·.selected)

/-- Modelled from the spec: the account-manager's selection discipline
(`src/account-manager` is not under `src/`; spec §4.4.4: rotation excludes
"the same exhausted account within the same logical request").  `Fresh pool
seen sel` says each selected account belongs to the pool and is either not
yet tried in this request or selected only after every pool account has
been tried. -/
inductive Fresh (pool : Finset Nat) : Finset Nat → List Nat → Prop where
  | nil (seen : Finset Nat) : Fresh pool seen []
  | cons_fresh {seen : Finset Nat} {a : Nat} {l : List Nat} :
      a ∈ pool → a ∉ seen → Fresh pool (insert a seen) l → Fresh pool seen (a :: l)
  | cons_covered {seen : Finset Nat} {a : Nat} {l : List Nat} :
      a ∈ pool → (∀ x ∈ pool, x ∈ seen) → Fresh pool seen l → Fresh pool seen (a :: l)

theorem fresh_cover_aux {pool seen : Finset Nat} {sel : List Nat}
    (hf : Fresh pool seen sel) :
    seen ⊆ pool → pool.card ≤ seen.card + sel.length →
    ∀ x ∈ pool, x ∈ seen ∨ x ∈ sel := by
  induction hf with
  | nil seen =>
    intro hsub hcard x hx
    left
    have := Finset.eq_of_subset_of_card_le hsub (by simpa using hcard)
    rw [← this] at hx
    exact hx
  | cons_fresh ha hnew _ ih =>
    rename_i seen a l _
    intro hsub hcard x hx
    have hsub' : insert a seen ⊆ pool := Finset.insert_subset ha hsub
    have hcard' : pool.card ≤ (insert a seen).card + l.length := by
      rw [Finset.card_insert_of_not_mem hnew]
      simpa [Nat.add_comm, Nat.add_assoc, Nat.add_left_comm] using hcard
    rcases ih hsub' hcard' x hx with hx' | hx'
    · rcases Finset.mem_insert.mp hx' with rfl | hx''
      · right; exact List.mem_cons_self _ _
      · left; exact hx''
    · right; exact List.mem_cons_of_mem _ hx'
  | cons_covered _ hcov _ _ =>
    intro _ _ x hx
    left
    exact hcov x hx

/-- Pigeonhole consequence of the selection discipline: a selection
sequence at least as long as the pool covers the whole pool. -/
theorem fresh_cover {pool : Finset Nat} {sel : List Nat}
    (hf : Fresh pool ∅ sel) (hlen : pool.card ≤ sel.length) :
    ∀ x ∈ pool, x ∈ sel := by
  intro x hx
  rcases fresh_cover_aux hf (Finset.empty_subset pool) (by simpa using hlen) x hx with h | h
  · exact absurd h (Finset.not_mem_empty x)
  · exact h

/-- The retry loop records at most `fuel` attempts, and exactly `fuel`
attempts when it falls out of the loop exhausted. -/
theorem loopAux_length (K : Consts) (request : AnthReq) (world : Nat → AttemptInputs) :
    ∀ fuel i, (loopAux K request world fuel i).2.length ≤ fuel ∧
      ((loopAux K request world fuel i).1 = .exhausted →
        (loopAux K request world fuel i).2.length = fuel) := by
  intro fuel
  induction fuel with
  | zero => intro i; exact ⟨by simp [loopAux], fun _ => by simp [loopAux]⟩
  | succ n ih =>
    intro i
    have hnext := ih (i + 1)
    unfold loopAux
    rcases h : attemptOnce K request (world i) with ⟨out, rec0⟩
    cases out with
    | success evs => simp
    | terminal e => simp
    | noAccount => simp
    | undersupplied => simp
    | rotate =>
      refine ⟨?_, fun hex => ?_⟩
      · have := hnext.1
        simp
        omega
      · have h2 := hnext.2 (by simpa using hex)
        simp
        omega
    | fellThrough =>
      refine ⟨?_, fun hex => ?_⟩
      · have := hnext.1
        simp
        omega
      · have h2 := hnext.2 (by simpa using hex)
        simp
        omega

/-- In the second component of `attemptOnce`, the recorded account is the
one the selection phase resolved. -/
theorem attemptOnce_selected (K : Consts) (request : AnthReq) (inp : AttemptInputs) :
    (attemptOnce K request inp).2.selected =
      (match selectPhase K request inp with
        | .inl (acc, _) => acc
        | .inr _ => none) := by
  rcases hsp : selectPhase K request inp with ⟨acc, acts⟩ | ⟨e, acts⟩
  · rcases acc with _ | a
    · simp [attemptOnce, hsp]
    · rcases htk : inp.tokenRes with e | tok
      · simp [attemptOnce, hsp, htk]
      · rcases hpj : inp.projectRes with e | proj
        · simp [attemptOnce, hsp, htk, hpj]
        · rcases hep : endpointLoop ⟨K.MAX_EMPTY_RESPONSE_RETRIES, K.msgId, a, tok, proj,
              request.model, (request.model, request.rest), K.numEndpoints⟩ inp.fetches
            with ⟨eout, eacts⟩
          cases eout <;> simp [attemptOnce, hsp, htk, hpj, hep]
  · simp [attemptOnce, hsp]

/-- An attempt that continues the retry loop (rotate or fall-through) did
select an account. -/
theorem attemptOnce_continue_selected (K : Consts) (request : AnthReq)
    (inp : AttemptInputs)
    (h : (attemptOnce K request inp).1 = .rotate ∨
      (attemptOnce K request inp).1 = .fellThrough) :
    (attemptOnce K request inp).2.selected.isSome = true := by
  rw [attemptOnce_selected]
  rcases hsp : selectPhase K request inp with ⟨_ | a, acts⟩ | ⟨e, acts⟩
  · have hout : (attemptOnce K request inp).1 = .noAccount := by
      unfold attemptOnce
      rw [hsp]
    rcases h with h | h <;> rw [hout] at h <;> simp at h
  · simp
  · have hout : (attemptOnce K request inp).1 = .terminal e := by
      unfold attemptOnce
      rw [hsp]
    rcases h with h | h <;> rw [hout] at h <;> simp at h

/-- Every attempt recorded by an exhausted run selected an account. -/
theorem loopAux_exhausted_selected (K : Consts) (request : AnthReq)
    (world : Nat → AttemptInputs) :
    ∀ fuel i, (loopAux K request world fuel i).1 = .exhausted →
      ∀ r ∈ (loopAux K request world fuel i).2, r.selected.isSome = true := by
  intro fuel
  induction fuel with
  | zero => intro i _ r hr; simp [loopAux] at hr
  | succ n ih =>
    intro i hex r hr
    unfold loopAux at hex hr
    rcases h : attemptOnce K request (world i) with ⟨out, rec0⟩
    rw [h] at hex hr
    cases out with
    | success evs => simp at hex
    | terminal e => simp at hex
    | noAccount => simp at hex
    | undersupplied => simp at hex
    | rotate =>
      simp only [List.mem_cons] at hr
      rcases hr with rfl | hr
      · have := attemptOnce_continue_selected K request (world i) (Or.inl (by rw [h]))
        rwa [h] at this
      · exact ih (i + 1) (by simpa using hex) r hr
    | fellThrough =>
      simp only [List.mem_cons] at hr
      rcases hr with rfl | hr
      · have := attemptOnce_continue_selected K request (world i) (Or.inr (by rw [h]))
        rwa [h] at this
      · exact ih (i + 1) (by simpa using hex) r hr

/-- When every record selected an account, the selection list is as long
as the record list. -/
theorem selectionsOf_length (recs : List AttemptRec)
    (h : ∀ r ∈ recs, r.selected.isSome = true) :
    (selectionsOf recs).length = recs.length := by
  induction recs with
  | nil => rfl
  | cons r rest ih =>
    have hr := h r (by simp)
    rcases hs : r.selected with _ | a
    · rw [hs] at hr; simp at hr
    · have htail := ih fun x hx => h x (by simp [hx])
      simpa [selectionsOf, List.filterMap_cons, hs] using htail

/-- C1: for every run of the retry loop, the number of attempts is bounded
by `max(MAX_RETRIES, accountCount + 1)` (the loop is a total function, so
it terminates), and when it gives up with `Max retries exceeded`
(`exhausted`) it has made at least `accountCount + 1` attempts — and,
under the account-manager's selection discipline, every pool account was
tried at least once before giving up. -/
theorem retry_loop_attempt_bound
    (K : Consts) (nAcc : Nat) (request : AnthReq) (world : Nat → AttemptInputs)
    (pool : Finset Nat) (hcard : pool.card = nAcc)
    (hfresh : Fresh pool ∅
      (selectionsOf (loopAux K request world (maxAttempts K nAcc) 0).2)) :
    (loopAux K request world (maxAttempts K nAcc) 0).2.length ≤
      Nat.max K.MAX_RETRIES (nAcc + 1) ∧
    ((loopAux K request world (maxAttempts K nAcc) 0).1 = .exhausted →
      nAcc + 1 ≤ (loopAux K request world (maxAttempts K nAcc) 0).2.length ∧
      ∀ x ∈ pool,
        x ∈ selectionsOf (loopAux K request world (maxAttempts K nAcc) 0).2) := by
  have hlen := loopAux_length K request world (maxAttempts K nAcc) 0
  refine ⟨hlen.1, ?_⟩
  intro hex
  have hexact := hlen.2 hex
  have hge : nAcc + 1 ≤ maxAttempts K nAcc := Nat.le_max_right _ _
  refine ⟨by omega, ?_⟩
  have hsome := loopAux_exhausted_selected K request world (maxAttempts K nAcc) 0 hex
  have hsellen := selectionsOf_length _ hsome
  exact fresh_cover hfresh (by omega)

/-- Witness for C1: one account (email 7), `MAX_RETRIES = 0`, so
`maxAttempts = max 0 2 = 2`; both attempts rotate on all-429 endpoints,
the loop exhausts after exactly 2 attempts, and account 7 was tried. -/
theorem retry_loop_attempt_bound_witness :
    (loopAux ⟨0, 3, 120000, 1, 1000, "m"⟩ ⟨"claude", 0⟩ exhaustWorld
        (maxAttempts ⟨0, 3, 120000, 1, 1000, "m"⟩ 1) 0).2.length ≤
      Nat.max 0 (1 + 1) ∧
    7 ∈ selectionsOf
      (loopAux ⟨0, 3, 120000, 1, 1000, "m"⟩ ⟨"claude", 0⟩ exhaustWorld
        (maxAttempts ⟨0, 3, 120000, 1, 1000, "m"⟩ 1) 0).2 := by
  have hsel : selectionsOf
      (loopAux ⟨0, 3, 120000, 1, 1000, "m"⟩ ⟨"claude", 0⟩ exhaustWorld
        (maxAttempts ⟨0, 3, 120000, 1, 1000, "m"⟩ 1) 0).2 = [7, 7] := by decide
  have hfresh : Fresh {7} ∅
      (selectionsOf (loopAux ⟨0, 3, 120000, 1, 1000, "m"⟩ ⟨"claude", 0⟩ exhaustWorld
        (maxAttempts ⟨0, 3, 120000, 1, 1000, "m"⟩ 1) 0).2) := by
    rw [hsel]
    exact .cons_fresh (by decide) (by decide)
      (.cons_covered (by decide) (by decide) (.nil _))
  have h := retry_loop_attempt_bound ⟨0, 3, 120000, 1, 1000, "m"⟩ 1 ⟨"claude", 0⟩
    exhaustWorld {7} (by decide) hfresh
  exact ⟨h.1, (h.2 (by decide)).2 7 (by decide)⟩

end Antigravity
